import Mathlib

/-!
Verification of the confidence-radius estimator of the IP-logger handler
(`computeRadiusFromPolygon` / `haversineKm` in `pages/api/ip-logger.js`).

The discrete resolution phase (argument shape checks, axis-order heuristic,
alias lookup) is embedded computably: JavaScript numbers that appear in the
input are modelled as `JNum` (a rational, `NaN`, or a signed infinity), and
nullish-vs-number distinctions as `JVal`.  The numeric tail (centroid,
haversine, max-tracking loop, final rounding) is embedded over an extended
real type `JReal` with JavaScript's NaN/infinity propagation rules; the
turn-to-two-decimals step `Number(x.toFixed(2))` is modelled as rounding the
ideal real to the nearest multiple of 1/100.
-/

set_option maxHeartbeats 1000000

namespace IpLogger

/-- A JavaScript number: `NaN`, `±Infinity`, or a finite value (modelled as a
rational; every concrete numeric literal appearing in the claims is rational). -/
inductive JNum where
  | nan : JNum
  | posInf : JNum
  | negInf : JNum
  | fin : ℚ → JNum
deriving DecidableEq, Repr

/-- A JavaScript value as far as the resolver inspects it: `undefined`, `null`,
or a non-nullish value whose `Number(·)` coercion is the given `JNum`. -/
inductive JVal where
  | undef : JVal
  | null : JVal
  | num : JNum → JVal
deriving DecidableEq, Repr

/-- `Number(v)` for the values we model (`Number(undefined) = NaN`,
`Number(null) = 0`). -/
def coerceNum : JVal → JNum
  | .undef => .nan
  | .null => .fin 0
  | .num j => j

/-- `numberOrNull` from the source: `null` for nullish input, otherwise
`Number(v)` if that is finite, else `null`. -/
def numberOrNull : JVal → Option ℚ
  | .undef => none
  | .null => none
  | .num (.fin q) => some q
  | .num _ => none

/-- The `??` (nullish-coalescing) operator. -/
def coalesce : JVal → JVal → JVal
  | .undef, b => b
  | .null, b => b
  | a, _ => a

/-- `Number.isNaN`. -/
def JNum.isNaN : JNum → Bool
  | .nan => true
  | _ => false

/-- `Math.abs(j) <= c` with JavaScript comparison semantics: false whenever
`j` is `NaN` or infinite (for infinities because `∞ ≤ c` is false). -/
def JNum.absLe (j : JNum) (c : ℚ) : Bool :=
  match j with
  | .fin q => decide (|q| ≤ c)
  | _ => false

/-- `j` is a finite number. -/
def JNum.isFin : JNum → Bool
  | .fin _ => true
  | _ => false

/-- The finite value of a `JNum` (junk `0` on `NaN`/infinities). -/
def JNum.toQ : JNum → ℚ
  | .fin q => q
  | _ => 0

/-- The properties the object branch of the resolver reads from a non-array
object: the alias fields and the index accesses `p[0]`, `p[1]`. -/
structure JObjFields where
  latitude : JVal
  lat : JVal
  longitude : JVal
  lon : JVal
  lng : JVal
  idx0 : JVal
  idx1 : JVal
deriving DecidableEq, Repr

/-- One raw polygon element: an array (with its elements as JavaScript
values), a truthy non-array object, or anything else (`null`, a primitive, …)
which the source rejects outright. -/
inductive RawPoint where
  | arr : List JVal → RawPoint
  | obj : JObjFields → RawPoint
  | prim : RawPoint
deriving DecidableEq, Repr

/-- A resolved point `{ lat, lon }`.  The coordinates can be `NaN` or
infinite: the pair branch of the resolver coerces without a finiteness
check. -/
structure Point where
  lat : JNum
  lon : JNum
deriving DecidableEq, Repr

/-- Object-shaped resolution: `numberOrNull(p.latitude ?? p.lat ?? p[1])` and
`numberOrNull(p.longitude ?? p.lon ?? p.lng ?? p[0])`, throwing when either
is `null`. -/
def resolveObj (f : JObjFields) : Except String Point :=
  match numberOrNull (coalesce f.latitude (coalesce f.lat f.idx1)),
      numberOrNull (coalesce f.longitude (coalesce f.lon (coalesce f.lng f.idx0))) with
  | some la, some lo => .ok ⟨.fin la, .fin lo⟩
  | _, _ => .error "Unrecognized polygon point"

/-- An array of length `< 2` falls through to the object branch (it is a
truthy `typeof 'object'` value): its alias fields are all `undefined` and
`p[0]`, `p[1]` read the array. -/
def objOfShortArr (xs : List JVal) : JObjFields :=
  ⟨.undef, .undef, .undef, .undef, .undef, xs.getD 0 .undef, xs.getD 1 .undef⟩

/-- One step of `polygon.map(p => …)` from the source: the pair branch with
the axis-order heuristic, the object branch with alias lookup, and the
throwing default. -/
def resolvePoint : RawPoint → Except String Point
  | .arr xs =>
    if 2 ≤ xs.length then
      let a := coerceNum (xs.getD 0 .undef)
      let b := coerceNum (xs.getD 1 .undef)
      if !a.isNaN && a.absLe 90 && b.absLe 180 then .ok ⟨a, b⟩ else .ok ⟨b, a⟩
    else resolveObj (objOfShortArr xs)
  | .obj f => resolveObj f
  | .prim => .error "Unrecognized polygon point"

/-- `polygon.map(p => …)`: resolves elements left to right, propagating the
first thrown error. -/
def resolveAll : List RawPoint → Except String (List Point)
  | [] => .ok []
  | p :: ps =>
    match resolvePoint p with
    | .error e => .error e
    | .ok pt =>
      match resolveAll ps with
      | .error e => .error e
      | .ok pts => .ok (pt :: pts)

instance {ε α : Type} [DecidableEq ε] [DecidableEq α] : DecidableEq (Except ε α) := fun x y =>
  match x, y with
  | .error a, .error b =>
    if h : a = b then .isTrue (by rw [h]) else .isFalse (by simp [h])
  | .ok a, .ok b =>
    if h : a = b then .isTrue (by rw [h]) else .isFalse (by simp [h])
  | .error _, .ok _ => .isFalse (by simp)
  | .ok _, .error _ => .isFalse (by simp)

/-- The top-level argument: either not an array at all, or an array of raw
polygon elements. -/
inductive JInput where
  | notArr : JInput
  | arr : List RawPoint → JInput

/-! ## The numeric tail: JavaScript doubles idealised as extended reals -/

/-- A JavaScript number in the numeric phase: `NaN`, `±Infinity`, or an ideal
real. -/
inductive JReal where
  | nan : JReal
  | posInf : JReal
  | negInf : JReal
  | fin : ℝ → JReal

/-- Inject a resolved coordinate into the numeric phase. -/
def JNum.toJReal : JNum → JReal
  | .nan => .nan
  | .posInf => .posInf
  | .negInf => .negInf
  | .fin q => .fin (q : ℚ)

/-- JavaScript `+`. -/
def jadd : JReal → JReal → JReal
  | .nan, _ => .nan
  | _, .nan => .nan
  | .posInf, .negInf => .nan
  | .negInf, .posInf => .nan
  | .posInf, _ => .posInf
  | _, .posInf => .posInf
  | .negInf, _ => .negInf
  | _, .negInf => .negInf
  | .fin x, .fin y => .fin (x + y)

/-- JavaScript `-` (binary). -/
def jsub : JReal → JReal → JReal
  | .nan, _ => .nan
  | _, .nan => .nan
  | .posInf, .posInf => .nan
  | .negInf, .negInf => .nan
  | .posInf, _ => .posInf
  | _, .posInf => .negInf
  | .negInf, _ => .negInf
  | _, .negInf => .posInf
  | .fin x, .fin y => .fin (x - y)

open Classical in
/-- JavaScript `*` (signed zeros collapsed to `0`, so `±∞ * 0 = NaN`). -/
noncomputable def jmul : JReal → JReal → JReal
  | .nan, _ => .nan
  | _, .nan => .nan
  | .posInf, .posInf => .posInf
  | .posInf, .negInf => .negInf
  | .negInf, .posInf => .negInf
  | .negInf, .negInf => .posInf
  | .posInf, .fin y => if 0 < y then .posInf else if y < 0 then .negInf else .nan
  | .fin x, .posInf => if 0 < x then .posInf else if x < 0 then .negInf else .nan
  | .negInf, .fin y => if 0 < y then .negInf else if y < 0 then .posInf else .nan
  | .fin x, .negInf => if 0 < x then .negInf else if x < 0 then .posInf else .nan
  | .fin x, .fin y => .fin (x * y)

open Classical in
/-- JavaScript `/` (signed zeros collapsed to `0`, hence `x / 0` for `x > 0`
is `+∞`, and `0 / 0`, `±∞ / ±∞` are `NaN`). -/
noncomputable def jdiv : JReal → JReal → JReal
  | .nan, _ => .nan
  | _, .nan => .nan
  | .posInf, .posInf => .nan
  | .posInf, .negInf => .nan
  | .negInf, .posInf => .nan
  | .negInf, .negInf => .nan
  | .posInf, .fin y => if 0 ≤ y then .posInf else .negInf
  | .negInf, .fin y => if 0 ≤ y then .negInf else .posInf
  | .fin _, .posInf => .fin 0
  | .fin _, .negInf => .fin 0
  | .fin x, .fin y =>
    if y = 0 then (if x = 0 then .nan else if 0 < x then .posInf else .negInf)
    else .fin (x / y)

/-- JavaScript `Math.sin` (`NaN` on `NaN` and on infinities). -/
noncomputable def jsin : JReal → JReal
  | .fin x => .fin (Real.sin x)
  | _ => .nan

/-- JavaScript `Math.cos` (`NaN` on `NaN` and on infinities). -/
noncomputable def jcos : JReal → JReal
  | .fin x => .fin (Real.cos x)
  | _ => .nan

open Classical in
/-- JavaScript `Math.sqrt` (`NaN` on negative input and on `NaN`/`-∞`). -/
noncomputable def jsqrt : JReal → JReal
  | .nan => .nan
  | .posInf => .posInf
  | .negInf => .nan
  | .fin x => if x < 0 then .nan else .fin (Real.sqrt x)

open Classical in
/-- The standard two-argument arctangent over the reals (as in the spec's
formula `c = 2·atan2(√a, √(1-a))`); signed zeros are collapsed. -/
noncomputable def atan2R (y x : ℝ) : ℝ :=
  if 0 < x then Real.arctan (y / x)
  else if x < 0 then
    (if 0 ≤ y then Real.arctan (y / x) + Real.pi else Real.arctan (y / x) - Real.pi)
  else
    (if 0 < y then Real.pi / 2 else if y < 0 then -(Real.pi / 2) else 0)

open Classical in
/-- JavaScript `Math.atan2` on the extended reals. -/
noncomputable def jatan2 : JReal → JReal → JReal
  | .nan, _ => .nan
  | _, .nan => .nan
  | .posInf, .posInf => .fin (Real.pi / 4)
  | .posInf, .negInf => .fin (3 * Real.pi / 4)
  | .negInf, .posInf => .fin (-(Real.pi / 4))
  | .negInf, .negInf => .fin (-(3 * Real.pi / 4))
  | .posInf, .fin _ => .fin (Real.pi / 2)
  | .negInf, .fin _ => .fin (-(Real.pi / 2))
  | .fin _, .posInf => .fin 0
  | .fin y, .negInf => if 0 ≤ y then .fin Real.pi else .fin (-Real.pi)
  | .fin y, .fin x => .fin (atan2R y x)

/-- `toRad` from the source: `(deg * Math.PI) / 180`. -/
noncomputable def toRad (deg : JReal) : JReal :=
  jdiv (jmul deg (.fin Real.pi)) (.fin 180)

/-- `haversineKm` from the source, step for step:
`a = sin(dLat/2)**2 + cos(toRad lat1) * cos(toRad lat2) * sin(dLon/2)**2`,
`c = 2 * atan2(sqrt a, sqrt (1 - a))`, result `6371 * c`. -/
noncomputable def haversineKm (lat1 lon1 lat2 lon2 : JReal) : JReal :=
  let dLat := toRad (jsub lat2 lat1)
  let dLon := toRad (jsub lon2 lon1)
  let sLat := jsin (jdiv dLat (.fin 2))
  let sLon := jsin (jdiv dLon (.fin 2))
  let a := jadd (jmul sLat sLat)
    (jmul (jmul (jcos (toRad lat1)) (jcos (toRad lat2))) (jmul sLon sLon))
  let c := jmul (.fin 2) (jatan2 (jsqrt a) (jsqrt (jsub (.fin 1) a)))
  jmul (.fin 6371) c

open Classical in
/-- JavaScript `d > m` on numbers: false whenever either side is `NaN`. -/
noncomputable def jgtb (d m : JReal) : Bool :=
  match d, m with
  | .fin x, .fin y => decide (y < x)
  | .posInf, .fin _ => true
  | .posInf, .negInf => true
  | .fin _, .negInf => true
  | _, _ => false

/-- One iteration of the maximum-tracking loop:
`if (d > maxKm) maxKm = d`. -/
noncomputable def maxStep (m d : JReal) : JReal := if jgtb d m then d else m

/-- `Number(x.toFixed(2))`: the ideal real rounded to the nearest multiple of
`1/100` (`NaN` and infinities round-trip through their string forms). -/
noncomputable def round2R (x : ℝ) : ℝ := ((round (x * 100) : ℤ) : ℝ) / 100

/-- `Number(maxKm.toFixed(2))` on the extended reals. -/
noncomputable def jround2 : JReal → JReal
  | .nan => .nan
  | .posInf => .posInf
  | .negInf => .negInf
  | .fin x => .fin (round2R x)

/-- The `reduce` accumulating coordinate sums: `{lat: 0, lon: 0}` start,
`acc.lat += pt.lat; acc.lon += pt.lon` per point. -/
def sumsOf (pts : List Point) : JReal × JReal :=
  pts.foldl (fun acc pt => (jadd acc.1 pt.lat.toJReal, jadd acc.2 pt.lon.toJReal))
    (JReal.fin 0, JReal.fin 0)

/-- `centroid.lat /= pts.length`. -/
noncomputable def centroidLat (pts : List Point) : JReal :=
  jdiv (sumsOf pts).1 (.fin (pts.length : ℝ))

/-- `centroid.lon /= pts.length`. -/
noncomputable def centroidLon (pts : List Point) : JReal :=
  jdiv (sumsOf pts).2 (.fin (pts.length : ℝ))

/-- The maximum-tracking loop: `maxKm = 0`, then for each point
`d = haversineKm(centroid.lat, centroid.lon, pt.lat, pt.lon)` and
`if (d > maxKm) maxKm = d`. -/
noncomputable def maxKmOf (pts : List Point) : JReal :=
  pts.foldl
    (fun m pt =>
      maxStep m (haversineKm (centroidLat pts) (centroidLon pts) pt.lat.toJReal pt.lon.toJReal))
    (JReal.fin 0)

/-- The numeric tail of `computeRadiusFromPolygon`: centroid, max-haversine
loop, and the final `Number(maxKm.toFixed(2))`. -/
noncomputable def radiusOfPoints (pts : List Point) : JReal :=
  jround2 (maxKmOf pts)

/-- `computeRadiusFromPolygon` from the source: reject a non-array or empty
input, resolve every element (propagating the first failure), then run the
numeric tail. -/
noncomputable def computeRadiusFromPolygon : JInput → Except String JReal
  | .notArr => .error "Invalid polygon"
  | .arr ps =>
    if ps.length = 0 then .error "Invalid polygon"
    else (resolveAll ps).map radiusOfPoints

/-- The spec's name for the operation. -/
noncomputable def estimateRadiusKm : JInput → Except String JReal :=
  computeRadiusFromPolygon

/-! ## The specification-side pipeline (written from the spec's words) -/

/-- The haversine distance exactly as the spec states it: convert to radians,
`a = sin²(Δlat/2) + cos(lat1)·cos(lat2)·sin²(Δlon/2)`,
`c = 2·atan2(√a, √(1-a))`, distance `= 6371·c`. -/
noncomputable def specHaversineKm (lat1 lon1 lat2 lon2 : ℝ) : ℝ :=
  let dLat := (lat2 - lat1) * Real.pi / 180
  let dLon := (lon2 - lon1) * Real.pi / 180
  let a := Real.sin (dLat / 2) ^ 2 +
    Real.cos (lat1 * Real.pi / 180) * Real.cos (lat2 * Real.pi / 180) *
      Real.sin (dLon / 2) ^ 2
  6371 * (2 * atan2R (Real.sqrt a) (Real.sqrt (1 - a)))

/-- The spec's pipeline on resolved points: arithmetic-mean centroid, maximum
haversine distance from the centroid to each point, one final rounding to two
decimals. -/
noncomputable def specRadiusKm (rpts : List (ℝ × ℝ)) : ℝ :=
  let cLat := (rpts.map Prod.fst).sum / rpts.length
  let cLon := (rpts.map Prod.snd).sum / rpts.length
  round2R ((rpts.map (fun q => specHaversineKm cLat cLon q.1 q.2)).foldl max 0)

/-- The real coordinates of a resolved point (junk `0` on non-finite
coordinates; only used under finiteness hypotheses). -/
def Point.toR (pt : Point) : ℝ × ℝ := ((pt.lat.toQ : ℚ), (pt.lon.toQ : ℚ))

/-! ## Evaluation lemmas for the JavaScript operations -/

@[simp] lemma toJReal_fin (q : ℚ) : JNum.toJReal (.fin q) = .fin (q : ℚ) := rfl

@[simp] lemma toJReal_nan : JNum.toJReal .nan = .nan := rfl

@[simp] lemma jadd_fin_fin (x y : ℝ) : jadd (.fin x) (.fin y) = .fin (x + y) := rfl

@[simp] lemma jadd_nan_left (y : JReal) : jadd .nan y = .nan := by cases y <;> rfl

@[simp] lemma jadd_nan_right (x : JReal) : jadd x .nan = .nan := by cases x <;> rfl

@[simp] lemma jsub_fin_fin (x y : ℝ) : jsub (.fin x) (.fin y) = .fin (x - y) := rfl

@[simp] lemma jsub_nan_left (y : JReal) : jsub .nan y = .nan := by cases y <;> rfl

@[simp] lemma jsub_nan_right (x : JReal) : jsub x .nan = .nan := by cases x <;> rfl

@[simp] lemma jmul_fin_fin (x y : ℝ) : jmul (.fin x) (.fin y) = .fin (x * y) := rfl

@[simp] lemma jmul_nan_left (y : JReal) : jmul .nan y = .nan := by cases y <;> rfl

@[simp] lemma jmul_nan_right (x : JReal) : jmul x .nan = .nan := by cases x <;> rfl

@[simp] lemma jdiv_nan_left (y : JReal) : jdiv .nan y = .nan := by cases y <;> rfl

@[simp] lemma jdiv_nan_right (x : JReal) : jdiv x .nan = .nan := by cases x <;> rfl

lemma jdiv_fin_fin {y : ℝ} (x : ℝ) (hy : y ≠ 0) : jdiv (.fin x) (.fin y) = .fin (x / y) := by
  simp [jdiv, hy]

@[simp] lemma jsin_fin (x : ℝ) : jsin (.fin x) = .fin (Real.sin x) := rfl

@[simp] lemma jsin_nan : jsin .nan = .nan := rfl

@[simp] lemma jcos_fin (x : ℝ) : jcos (.fin x) = .fin (Real.cos x) := rfl

@[simp] lemma jcos_nan : jcos .nan = .nan := rfl

@[simp] lemma jsqrt_nan : jsqrt .nan = .nan := rfl

lemma jsqrt_fin_nonneg {x : ℝ} (hx : 0 ≤ x) : jsqrt (.fin x) = .fin (Real.sqrt x) := by
  simp [jsqrt, not_lt.mpr hx]

lemma jsqrt_fin_neg {x : ℝ} (hx : x < 0) : jsqrt (.fin x) = .nan := by
  simp [jsqrt, hx]

@[simp] lemma jatan2_nan_left (x : JReal) : jatan2 .nan x = .nan := by cases x <;> rfl

@[simp] lemma jatan2_nan_right (y : JReal) : jatan2 y .nan = .nan := by cases y <;> rfl

@[simp] lemma jatan2_fin_fin (y x : ℝ) : jatan2 (.fin y) (.fin x) = .fin (atan2R y x) := rfl

@[simp] lemma maxStep_nan (m : JReal) : maxStep m .nan = m := by
  cases m <;> simp [maxStep, jgtb]

lemma maxStep_fin_fin (m x : ℝ) : maxStep (.fin m) (.fin x) = .fin (max m x) := by
  by_cases h : m < x
  · simp [maxStep, jgtb, h, max_eq_right h.le]
  · simp [maxStep, jgtb, h, max_eq_left (not_lt.1 h)]

@[simp] lemma jround2_fin (x : ℝ) : jround2 (.fin x) = .fin (round2R x) := rfl

@[simp] lemma round2R_zero : round2R 0 = 0 := by
  simp [round2R]

lemma round2R_nonneg {x : ℝ} (hx : 0 ≤ x) : 0 ≤ round2R x := by
  have h : (0 : ℤ) ≤ round (x * 100) := by
    rw [round_eq]
    exact Int.floor_nonneg.mpr (by nlinarith)
  exact div_nonneg (by exact_mod_cast h) (by norm_num)

lemma round2R_le (x : ℝ) : round2R x ≤ x + 1 / 200 := by
  have h := abs_sub_round (x * 100)
  rw [abs_le] at h
  unfold round2R
  nlinarith [h.1, h.2]

lemma le_round2R (x : ℝ) : x - 1 / 200 ≤ round2R x := by
  have h := abs_sub_round (x * 100)
  rw [abs_le] at h
  unfold round2R
  nlinarith [h.1, h.2]

/-- `Math.atan2` never produces an infinity. -/
lemma jatan2_fin_or_nan (y x : JReal) :
    jatan2 y x = .nan ∨ ∃ t, jatan2 y x = .fin t := by
  cases y <;> cases x
  all_goals try exact Or.inl rfl
  all_goals try exact Or.inr ⟨_, rfl⟩
  rename_i v
  rw [show jatan2 (.fin v) .negInf
      = if (0 : ℝ) ≤ v then JReal.fin Real.pi else JReal.fin (-Real.pi) from rfl]
  split_ifs <;> exact Or.inr ⟨_, rfl⟩

lemma jmul_consts_fin_or_nan (y x : JReal) :
    jmul (.fin 6371) (jmul (.fin 2) (jatan2 y x)) = .nan ∨
      ∃ t, jmul (.fin 6371) (jmul (.fin 2) (jatan2 y x)) = .fin t := by
  rcases jatan2_fin_or_nan y x with h | ⟨t, h⟩ <;> rw [h]
  · exact Or.inl rfl
  · exact Or.inr ⟨_, rfl⟩

/-- A haversine distance is never an infinity: it is `NaN` or finite. -/
lemma hav_fin_or_nan (a b c d : JReal) :
    haversineKm a b c d = .nan ∨ ∃ x, haversineKm a b c d = .fin x :=
  jmul_consts_fin_or_nan _ _

/-- The maximum-tracking loop started at a nonnegative finite value stays
finite and nonnegative. -/
lemma fold_max_nonneg (pts : List Point) (cl co : JReal) :
    ∀ m : ℝ, 0 ≤ m →
      ∃ x, 0 ≤ x ∧
        pts.foldl
          (fun mm pt => maxStep mm (haversineKm cl co pt.lat.toJReal pt.lon.toJReal))
          (.fin m) = .fin x := by
  induction pts with
  | nil => exact fun m hm => ⟨m, hm, rfl⟩
  | cons pt pts ih =>
    intro m hm
    rcases hav_fin_or_nan cl co pt.lat.toJReal pt.lon.toJReal with h | ⟨d, h⟩
    · simpa [h] using ih m hm
    · simp only [List.foldl_cons, h, maxStep_fin_fin]
      exact ih (max m d) (le_trans hm (le_max_left _ _))

lemma radius_fin_nonneg (pts : List Point) :
    ∃ x, 0 ≤ x ∧ radiusOfPoints pts = .fin x := by
  obtain ⟨x, hx, hfold⟩ :=
    fold_max_nonneg pts (centroidLat pts) (centroidLon pts) 0 le_rfl
  refine ⟨round2R x, round2R_nonneg hx, ?_⟩
  rw [radiusOfPoints, maxKmOf, hfold, jround2_fin]

/-! ## Resolution-phase lemmas -/

lemma resolveAll_error_of_mem {ps : List RawPoint} {p : RawPoint} (hp : p ∈ ps)
    {e0 : String} (he : resolvePoint p = .error e0) :
    ∃ e, resolveAll ps = .error e := by
  induction ps with
  | nil => cases hp
  | cons q qs ih =>
    cases hp with
    | head => exact ⟨e0, by simp [resolveAll, he]⟩
    | tail _ hmem =>
      cases hq : resolvePoint q with
      | error e1 => exact ⟨e1, by simp [resolveAll, hq]⟩
      | ok pt =>
        obtain ⟨e, h⟩ := ih hmem
        exact ⟨e, by simp [resolveAll, hq, h]⟩

lemma resolveAll_ok_of_forall (ps : List RawPoint)
    (h : ∀ p ∈ ps, ∃ pt, resolvePoint p = .ok pt) :
    ∃ pts, resolveAll ps = .ok pts := by
  induction ps with
  | nil => exact ⟨[], rfl⟩
  | cons q qs ih =>
    obtain ⟨pt, hq⟩ := h q (List.mem_cons_self q qs)
    obtain ⟨pts, hqs⟩ := ih fun p hp => h p (List.mem_cons_of_mem q hp)
    exact ⟨pt :: pts, by simp [resolveAll, hq, hqs]⟩

lemma resolveAll_length {ps : List RawPoint} {pts : List Point}
    (h : resolveAll ps = .ok pts) : pts.length = ps.length := by
  induction ps generalizing pts with
  | nil => cases h; rfl
  | cons q qs ih =>
    rw [resolveAll] at h
    cases hq : resolvePoint q with
    | error e => rw [hq] at h; cases h
    | ok pt =>
      rw [hq] at h
      cases hqs : resolveAll qs with
      | error e => rw [hqs] at h; cases h
      | ok pts2 =>
        rw [hqs] at h
        cases h
        simpa using ih hqs

/-- The polygon is a non-empty array of arrays of length at least 2. -/
def RawPoint.isWidePair : RawPoint → Bool
  | .arr xs => decide (2 ≤ xs.length)
  | _ => false

lemma resolve_widePair_ok (p : RawPoint) (h : p.isWidePair = true) :
    ∃ pt, resolvePoint p = .ok pt := by
  cases p with
  | arr xs =>
    have hlen : 2 ≤ xs.length := by simpa [RawPoint.isWidePair] using h
    simp only [resolvePoint, if_pos hlen]
    split_ifs <;> exact ⟨_, rfl⟩
  | obj f => exact Bool.noConfusion h
  | prim => exact Bool.noConfusion h

/-- The all-NaN pair `[["x","y"]]` (entries coercing to `NaN`): accepted by
the resolver through the swap branch, every distance is `NaN`, and the
result is `0`. -/
lemma radius_nan_pair :
    computeRadiusFromPolygon (.arr [.arr [.num .nan, .num .nan]]) = .ok (.fin 0) := by
  have h1 : resolveAll [.arr [.num .nan, .num .nan]] = .ok [⟨.nan, .nan⟩] := rfl
  have h2 : radiusOfPoints [⟨.nan, .nan⟩] = .fin 0 := by
    have hc : centroidLat [(⟨.nan, .nan⟩ : Point)] = .nan := by
      simp [centroidLat, sumsOf]
    have hd : haversineKm (centroidLat [(⟨.nan, .nan⟩ : Point)])
        (centroidLon [(⟨.nan, .nan⟩ : Point)]) JReal.nan JReal.nan
        = .nan := by
      rw [hc]
      simp [haversineKm, toRad]
    rw [radiusOfPoints, maxKmOf]
    simp only [List.foldl_cons, List.foldl_nil, toJReal_nan, hd, maxStep_nan]
    simp
  simp [computeRadiusFromPolygon, h1, h2, Except.map]

/-! ## Claim theorems (error handling, shape handling, purity) -/

/-- C4: an ordered pair (here with finite entries, the case the heuristic is
about) is taken as `[latitude, longitude]` iff `|first| ≤ 90` and
`|second| ≤ 180`, and is swapped to `[longitude, latitude]` otherwise; in
particular `[200.0, 45.0]` resolves to latitude `45.0`, longitude `200.0`. -/
theorem pair_axis_order_disambiguation :
    (∀ (qa qb : ℚ) (rest : List JVal),
      resolvePoint (.arr (.num (.fin qa) :: .num (.fin qb) :: rest)) =
        .ok (if |qa| ≤ 90 ∧ |qb| ≤ 180 then ⟨.fin qa, .fin qb⟩ else ⟨.fin qb, .fin qa⟩)) ∧
    resolvePoint (.arr [.num (.fin 200), .num (.fin 45)]) =
      .ok ⟨.fin 45, .fin 200⟩ := by
  constructor
  · intro qa qb rest
    have hlen : 2 ≤ (JVal.num (.fin qa) :: JVal.num (.fin qb) :: rest).length := by
      simp
    by_cases h1 : |qa| ≤ 90 <;> by_cases h2 : |qb| ≤ 180 <;>
      simp [resolvePoint, hlen, coerceNum, JNum.isNaN, JNum.absLe, h1, h2]
  · rfl

/-- C6: the empty array and any non-array input fail with the
`InvalidPolygonError` (`throw new Error('Invalid polygon')`). -/
theorem empty_or_non_sequence_errors :
    computeRadiusFromPolygon (.arr []) = .error "Invalid polygon" ∧
    computeRadiusFromPolygon .notArr = .error "Invalid polygon" :=
  ⟨rfl, rfl⟩

/-- C9: the computation is a pure function of its input — it is embedded as
a total function reading no external state, so two invocations on the same
input are equal results. -/
theorem estimateRadiusKm_deterministic :
    ∀ (inp : JInput) (r1 r2 : Except String JReal),
      estimateRadiusKm inp = r1 → estimateRadiusKm inp = r2 → r1 = r2 := by
  intro inp r1 r2 h1 h2
  rw [← h1, ← h2]

/-- Witness for C9 at the concrete input `[]`. -/
theorem estimateRadiusKm_deterministic_witness :
    (Except.error "Invalid polygon" : Except String JReal) = .error "Invalid polygon" :=
  estimateRadiusKm_deterministic (.arr []) _ _ rfl rfl

/-- C2 counterexample: `[["x","y"]]` — the element is a length-2 pair whose
entries do not coerce to finite numbers (`Number("x")` is `NaN`, which
`numberOrNull` maps to `null`), so under the claim it cannot be resolved;
yet the function returns `0` instead of failing. -/
theorem nan_pair_not_rejected :
    numberOrNull (JVal.num .nan) = none ∧
    computeRadiusFromPolygon (.arr [.arr [.num .nan, .num .nan]]) = .ok (.fin 0) :=
  ⟨rfl, radius_nan_pair⟩

/-- C2 (amended): a non-empty sequence containing an element the resolver
actually rejects — anything that is not an array of length ≥ 2 and does not
yield finite latitude and longitude through the alias lookup — makes the
function fail with an `InvalidPolygonError`. -/
theorem unresolvable_element_errors :
    ∀ (ps : List RawPoint) (p : RawPoint), p ∈ ps →
      (∃ e0, resolvePoint p = .error e0) →
      ∃ e, computeRadiusFromPolygon (.arr ps) = .error e := by
  rintro ps p hp ⟨e0, he⟩
  have hlen : ¬ ps.length = 0 := by
    cases ps
    · cases hp
    · simp
  obtain ⟨e, h⟩ := resolveAll_error_of_mem hp he
  exact ⟨e, by simp [computeRadiusFromPolygon, hlen, h, Except.map]⟩

/-- Witness for C2 (amended) at `[null]` (a primitive element). -/
theorem unresolvable_element_errors_witness :
    ∃ e, computeRadiusFromPolygon (.arr [.prim]) = .error e :=
  unresolvable_element_errors [.prim] .prim (List.mem_singleton.mpr rfl) ⟨_, rfl⟩

/-- C3: whenever the function returns at all, the result is a finite,
nonnegative number — never `NaN`, an infinity, or a sentinel. -/
theorem radius_result_nonneg_finite :
    ∀ (inp : JInput) (r : JReal), computeRadiusFromPolygon inp = .ok r →
      ∃ x, r = .fin x ∧ 0 ≤ x := by
  intro inp r h
  cases inp with
  | notArr => exact absurd h (by simp [computeRadiusFromPolygon])
  | arr ps =>
    by_cases hlen : ps.length = 0
    · simp [computeRadiusFromPolygon, hlen] at h
    · simp only [computeRadiusFromPolygon, if_neg hlen] at h
      cases hres : resolveAll ps with
      | error e => rw [hres] at h; simp [Except.map] at h
      | ok pts =>
        rw [hres] at h
        simp only [Except.map, Except.ok.injEq] at h
        obtain ⟨x, hx, hr⟩ := radius_fin_nonneg pts
        exact ⟨x, by rw [← h, hr], hx⟩

/-- Witness for C3 at the concrete input `[["x","y"]]`. -/
theorem radius_result_nonneg_finite_witness :
    ∃ x, JReal.fin 0 = .fin x ∧ (0 : ℝ) ≤ x :=
  radius_result_nonneg_finite (.arr [.arr [.num .nan, .num .nan]]) (.fin 0) radius_nan_pair

/-- C10: a non-empty array whose elements are all arrays of length ≥ 2 never
makes the function throw (unresolvable entries just become `NaN`
coordinates); the `d > maxKm` comparison discards `NaN` distances; and a
polygon of only unresolvable pairs, such as `[["x","y"]]`, returns `0`. -/
theorem wide_pairs_never_throw :
    (∀ ps : List RawPoint, ps ≠ [] → (∀ p ∈ ps, p.isWidePair = true) →
      ∃ r, computeRadiusFromPolygon (.arr ps) = .ok r) ∧
    (∀ m : JReal, maxStep m .nan = m) ∧
    computeRadiusFromPolygon (.arr [.arr [.num .nan, .num .nan]]) = .ok (.fin 0) := by
  refine ⟨?_, fun m => maxStep_nan m, radius_nan_pair⟩
  intro ps hne hall
  obtain ⟨pts, hres⟩ :=
    resolveAll_ok_of_forall ps fun p hp => resolve_widePair_ok p (hall p hp)
  have hlen : ¬ ps.length = 0 := by
    cases ps
    · exact absurd rfl hne
    · simp
  exact ⟨radiusOfPoints pts, by simp [computeRadiusFromPolygon, hlen, hres, Except.map]⟩

/-- Witness for C10 at a mixed polygon (one resolvable pair, one pair with a
`NaN` entry). -/
theorem wide_pairs_never_throw_witness :
    ∃ r, computeRadiusFromPolygon (.arr [.arr [.num (.fin 1), .num (.fin 2)],
      .arr [.num .nan, .num (.fin 3)]]) = .ok r :=
  wide_pairs_never_throw.1 _ (by simp) (by decide)

/-! ## The refinement proof: the code equals the spec pipeline -/

@[simp] lemma toQ_fin (q : ℚ) : JNum.toQ (.fin q) = q := rfl

lemma JNum.isFin_exists {j : JNum} (h : j.isFin = true) : ∃ q, j = .fin q := by
  cases j with
  | fin q => exact ⟨q, rfl⟩
  | nan => exact Bool.noConfusion h
  | posInf => exact Bool.noConfusion h
  | negInf => exact Bool.noConfusion h

@[simp] lemma jdiv_fin_180 (x : ℝ) : jdiv (.fin x) (.fin 180) = .fin (x / 180) :=
  jdiv_fin_fin x (by norm_num)

@[simp] lemma jdiv_fin_2 (x : ℝ) : jdiv (.fin x) (.fin 2) = .fin (x / 2) :=
  jdiv_fin_fin x (by norm_num)

/-- The `a` computed by `haversineKm` on finite inputs (with the source's
`s * s` squarings). -/
noncomputable def havAc (lat1 lon1 lat2 lon2 : ℝ) : ℝ :=
  Real.sin ((lat2 - lat1) * Real.pi / 180 / 2) * Real.sin ((lat2 - lat1) * Real.pi / 180 / 2) +
    Real.cos (lat1 * Real.pi / 180) * Real.cos (lat2 * Real.pi / 180) *
      (Real.sin ((lon2 - lon1) * Real.pi / 180 / 2) * Real.sin ((lon2 - lon1) * Real.pi / 180 / 2))

/-- On finite inputs `haversineKm` reduces to constants applied to `havAc`. -/
lemma hav_fin_red (l1 o1 l2 o2 : ℝ) :
    haversineKm (.fin l1) (.fin o1) (.fin l2) (.fin o2)
      = jmul (.fin 6371) (jmul (.fin 2)
          (jatan2 (jsqrt (.fin (havAc l1 o1 l2 o2)))
            (jsqrt (.fin (1 - havAc l1 o1 l2 o2))))) := by
  simp only [haversineKm, toRad, jsub_fin_fin, jmul_fin_fin, jdiv_fin_180, jdiv_fin_2,
    jsin_fin, jcos_fin, jadd_fin_fin, havAc]

/-- `sin²((y-x)/2) + cos x · cos y · sin² v ≤ 1` for all reals: the haversine
`a` never exceeds `1`, whatever (even out-of-range) latitudes are fed in. -/
lemma hav_a_le_one (x y v : ℝ) :
    Real.sin ((y - x) / 2) * Real.sin ((y - x) / 2)
      + Real.cos x * Real.cos y * (Real.sin v * Real.sin v) ≤ 1 := by
  have h1 : Real.sin ((y - x) / 2) ^ 2 = 1 / 2 - Real.cos (y - x) / 2 := by
    rw [Real.sin_sq_eq_half_sub]
    have h : 2 * ((y - x) / 2) = y - x := by ring
    rw [h]
  have hsub : Real.cos (y - x) = Real.cos y * Real.cos x + Real.sin y * Real.sin x :=
    Real.cos_sub y x
  have hadd : Real.cos (y + x) = Real.cos y * Real.cos x - Real.sin y * Real.sin x :=
    Real.cos_add y x
  have hs1 : Real.sin v ^ 2 ≤ 1 := Real.sin_sq_le_one v
  have hs0 : 0 ≤ Real.sin v ^ 2 := sq_nonneg _
  have hc1 : Real.cos (y - x) ≤ 1 := Real.cos_le_one _
  have hc4 : -1 ≤ Real.cos (y + x) := Real.neg_one_le_cos _
  nlinarith [mul_nonneg (sub_nonneg.mpr hs1)
      (by linarith [Real.neg_one_le_cos (y - x)] : (0:ℝ) ≤ 1 + Real.cos (y - x)),
    mul_nonneg hs0 (by linarith [Real.cos_le_one (y + x)] : (0:ℝ) ≤ 1 - Real.cos (y + x))]

lemma havAc_le_one (l1 o1 l2 o2 : ℝ) : havAc l1 o1 l2 o2 ≤ 1 := by
  unfold havAc
  have h : (l2 - l1) * Real.pi / 180 / 2
      = (l2 * Real.pi / 180 - l1 * Real.pi / 180) / 2 := by ring
  rw [h]
  exact hav_a_le_one (l1 * Real.pi / 180) (l2 * Real.pi / 180) _

/-- On finite inputs the source's haversine either equals the spec's formula
or (exactly when `a < 0`, possible only for out-of-range latitudes) is `NaN`
while the spec's value is `0` — in both cases a no-op for the running
maximum. -/
lemma hav_fin_spec (l1 o1 l2 o2 : ℝ) :
    (haversineKm (.fin l1) (.fin o1) (.fin l2) (.fin o2)
        = .fin (specHaversineKm l1 o1 l2 o2)) ∨
    (haversineKm (.fin l1) (.fin o1) (.fin l2) (.fin o2) = .nan ∧
      specHaversineKm l1 o1 l2 o2 = 0) := by
  have hred := hav_fin_red l1 o1 l2 o2
  have hle := havAc_le_one l1 o1 l2 o2
  have hspec : specHaversineKm l1 o1 l2 o2
      = 6371 * (2 * atan2R (Real.sqrt (havAc l1 o1 l2 o2))
          (Real.sqrt (1 - havAc l1 o1 l2 o2))) := by
    have ha : Real.sin ((l2 - l1) * Real.pi / 180 / 2) ^ 2 +
        Real.cos (l1 * Real.pi / 180) * Real.cos (l2 * Real.pi / 180) *
          Real.sin ((o2 - o1) * Real.pi / 180 / 2) ^ 2 = havAc l1 o1 l2 o2 := by
      unfold havAc
      ring
    simp only [specHaversineKm]
    rw [ha]
  rcases le_or_lt 0 (havAc l1 o1 l2 o2) with h0 | h0
  · left
    rw [hred, jsqrt_fin_nonneg h0, jsqrt_fin_nonneg (by linarith), jatan2_fin_fin,
      jmul_fin_fin, jmul_fin_fin, hspec]
  · right
    constructor
    · rw [hred, jsqrt_fin_neg h0]
      simp
    · rw [hspec, Real.sqrt_eq_zero_of_nonpos h0.le]
      have hx : 0 < Real.sqrt (1 - havAc l1 o1 l2 o2) := Real.sqrt_pos.mpr (by linarith)
      simp only [atan2R, if_pos hx]
      simp

/-- The coordinate-sum `reduce` on all-finite points. -/
lemma sums_fin (pts : List Point)
    (hfin : ∀ pt ∈ pts, pt.lat.isFin = true ∧ pt.lon.isFin = true) :
    ∀ x y : ℝ,
      pts.foldl (fun acc pt => (jadd acc.1 pt.lat.toJReal, jadd acc.2 pt.lon.toJReal))
        (JReal.fin x, JReal.fin y)
      = (.fin (x + ((pts.map fun pt => ((pt.lat.toQ : ℚ) : ℝ)).sum)),
         .fin (y + ((pts.map fun pt => ((pt.lon.toQ : ℚ) : ℝ)).sum))) := by
  induction pts with
  | nil => intro x y; simp
  | cons pt pts ih =>
    intro x y
    obtain ⟨a, ha⟩ := JNum.isFin_exists (hfin pt (List.mem_cons_self pt pts)).1
    obtain ⟨b, hb⟩ := JNum.isFin_exists (hfin pt (List.mem_cons_self pt pts)).2
    rw [List.foldl_cons]
    simp only [ha, hb, toJReal_fin, jadd_fin_fin]
    rw [ih (fun q hq => hfin q (List.mem_cons_of_mem pt hq))]
    simp [ha, hb, add_assoc]

/-- The maximum-tracking loop on all-finite points, against the spec's
running maximum of spec-haversine distances. -/
lemma fold_max_spec (cl co : ℝ) (pts : List Point)
    (hfin : ∀ pt ∈ pts, pt.lat.isFin = true ∧ pt.lon.isFin = true) :
    ∀ m : ℝ, 0 ≤ m →
      pts.foldl
        (fun mm pt => maxStep mm (haversineKm (.fin cl) (.fin co) pt.lat.toJReal pt.lon.toJReal))
        (.fin m)
      = .fin ((pts.map fun pt =>
          specHaversineKm cl co ((pt.lat.toQ : ℚ) : ℝ) ((pt.lon.toQ : ℚ) : ℝ)).foldl max m) := by
  induction pts with
  | nil => intro m _; simp
  | cons pt pts ih =>
    intro m hm
    obtain ⟨a, ha⟩ := JNum.isFin_exists (hfin pt (List.mem_cons_self pt pts)).1
    obtain ⟨b, hb⟩ := JNum.isFin_exists (hfin pt (List.mem_cons_self pt pts)).2
    have htail : ∀ q ∈ pts, q.lat.isFin = true ∧ q.lon.isFin = true :=
      fun q hq => hfin q (List.mem_cons_of_mem pt hq)
    rw [List.foldl_cons, List.map_cons, List.foldl_cons]
    simp only [ha, hb, toJReal_fin, toQ_fin]
    rcases hav_fin_spec cl co (a : ℚ) (b : ℚ) with h | ⟨hnan, hzero⟩
    · rw [h, maxStep_fin_fin]
      exact ih htail (max m (specHaversineKm cl co (a : ℚ) (b : ℚ)))
        (le_trans hm (le_max_left _ _))
    · rw [hnan, maxStep_nan, hzero, max_eq_left hm]
      exact ih htail m hm

/-- The numeric tail equals the spec pipeline on non-empty all-finite
point lists. -/
lemma radius_fin_eq (pts : List Point) (hne : pts ≠ [])
    (hfin : ∀ pt ∈ pts, pt.lat.isFin = true ∧ pt.lon.isFin = true) :
    radiusOfPoints pts = .fin (specRadiusKm (pts.map Point.toR)) := by
  have hlen : ((pts.length : ℝ)) ≠ 0 := by
    refine Nat.cast_ne_zero.mpr ?_
    cases pts
    · exact absurd rfl hne
    · simp
  have hsums := sums_fin pts hfin 0 0
  have hclat : centroidLat pts
      = .fin (((pts.map fun pt => ((pt.lat.toQ : ℚ) : ℝ)).sum) / pts.length) := by
    simp only [centroidLat, sumsOf, hsums]
    rw [jdiv_fin_fin _ hlen, zero_add]
  have hclon : centroidLon pts
      = .fin (((pts.map fun pt => ((pt.lon.toQ : ℚ) : ℝ)).sum) / pts.length) := by
    simp only [centroidLon, sumsOf, hsums]
    rw [jdiv_fin_fin _ hlen, zero_add]
  have hmax := fold_max_spec (((pts.map fun pt => ((pt.lat.toQ : ℚ) : ℝ)).sum) / pts.length)
    (((pts.map fun pt => ((pt.lon.toQ : ℚ) : ℝ)).sum) / pts.length) pts hfin 0 le_rfl
  rw [radiusOfPoints, maxKmOf, hclat, hclon, hmax, jround2_fin]
  have e1 : (pts.map Point.toR).map Prod.fst = pts.map fun pt => ((pt.lat.toQ : ℚ) : ℝ) := by
    rw [List.map_map]
    rfl
  have e2 : (pts.map Point.toR).map Prod.snd = pts.map fun pt => ((pt.lon.toQ : ℚ) : ℝ) := by
    rw [List.map_map]
    rfl
  simp only [specRadiusKm, e1, e2, List.length_map, List.map_map]
  rfl

/-- C1: on a polygon whose elements all resolve to finite coordinate pairs,
the function returns exactly the spec's value: the maximum spec-haversine
distance (R = 6371, `a`/`c`/`R·c` formula) from the arithmetic-mean centroid
to the resolved points, rounded to two decimals once at the very end
(`specRadiusKm` applies `round2R` a single time, to the unrounded maximum of
unrounded distances). -/
theorem radius_matches_spec_pipeline :
    ∀ (ps : List RawPoint) (pts : List Point), ps ≠ [] →
      resolveAll ps = .ok pts →
      (∀ pt ∈ pts, pt.lat.isFin = true ∧ pt.lon.isFin = true) →
      computeRadiusFromPolygon (.arr ps) = .ok (.fin (specRadiusKm (pts.map Point.toR))) := by
  intro ps pts hne hres hfin
  have hlen : ¬ ps.length = 0 := by
    cases ps
    · exact absurd rfl hne
    · simp
  have hlenq := resolveAll_length hres
  have hptsne : pts ≠ [] := by
    intro h
    rw [h] at hlenq
    cases ps
    · exact hne rfl
    · simp at hlenq
  simp only [computeRadiusFromPolygon, if_neg hlen, hres, Except.map]
  rw [radius_fin_eq pts hptsne hfin]

/-- Witness for C1 at the two-point polygon `[[1,2],[3,4]]`. -/
theorem radius_matches_spec_pipeline_witness :
    computeRadiusFromPolygon
        (.arr [.arr [.num (.fin 1), .num (.fin 2)], .arr [.num (.fin 3), .num (.fin 4)]])
      = .ok (.fin (specRadiusKm
          (([⟨.fin 1, .fin 2⟩, ⟨.fin 3, .fin 4⟩] : List Point).map Point.toR))) :=
  radius_matches_spec_pipeline _ _ (by simp) (by rfl) (by decide)

/-! ## Degenerate polygons: repeated points and singletons -/

lemma atan2R_pos {y x : ℝ} (hx : 0 < x) : atan2R y x = Real.arctan (y / x) := by
  unfold atan2R
  rw [if_pos hx]

lemma atan2R_zero_pos {x : ℝ} (hx : 0 < x) : atan2R 0 x = 0 := by
  rw [atan2R_pos hx, zero_div, Real.arctan_zero]

/-- The spec haversine from a point to itself is `0`. -/
lemma spec_hav_self (x y : ℝ) : specHaversineKm x y x y = 0 := by
  have h1 : (x - x) * Real.pi / 180 / 2 = 0 := by ring
  have h2 : (y - y) * Real.pi / 180 / 2 = 0 := by ring
  simp only [specHaversineKm, h1, h2, Real.sin_zero]
  norm_num [Real.sqrt_zero, Real.sqrt_one, atan2R_zero_pos zero_lt_one]

lemma foldl_max_replicate_zero (n : ℕ) (m : ℝ) (hm : 0 ≤ m) :
    (List.replicate n (0 : ℝ)).foldl max m = m := by
  induction n with
  | zero => rfl
  | succ k ih => rw [List.replicate_succ, List.foldl_cons, max_eq_left hm]; exact ih

lemma resolveAll_replicate (p : RawPoint) (pt : Point) (h : resolvePoint p = .ok pt) :
    ∀ n, resolveAll (List.replicate n p) = .ok (List.replicate n pt) := by
  intro n
  induction n with
  | zero => rfl
  | succ k ih => simp [List.replicate_succ, resolveAll, h, ih]

/-- A polygon made of `n ≥ 1` copies of one resolvable point yields radius
`0`: the centroid is the point itself and every distance vanishes. -/
lemma radius_replicate_zero (p : RawPoint) (a b : ℚ) (n : ℕ) (hn : 1 ≤ n)
    (hres : resolvePoint p = .ok ⟨.fin a, .fin b⟩) :
    computeRadiusFromPolygon (.arr (List.replicate n p)) = .ok (.fin 0) := by
  have hn0 : n ≠ 0 := by omega
  have hall : resolveAll (List.replicate n p)
      = .ok (List.replicate n ⟨.fin a, .fin b⟩) := resolveAll_replicate p _ hres n
  have hne : (List.replicate n (⟨.fin a, .fin b⟩ : Point)) ≠ [] := by
    cases n
    · exact absurd rfl hn0
    · simp [List.replicate_succ]
  have hfin : ∀ pt ∈ List.replicate n (⟨.fin a, .fin b⟩ : Point),
      pt.lat.isFin = true ∧ pt.lon.isFin = true := by
    intro pt hpt
    rw [List.eq_of_mem_replicate hpt]
    exact ⟨rfl, rfl⟩
  have hmain := radius_fin_eq _ hne hfin
  have hcastn : ((n : ℕ) : ℝ) ≠ 0 := Nat.cast_ne_zero.mpr hn0
  have hca : (List.replicate n ((a : ℚ) : ℝ)).sum / ((n : ℕ) : ℝ) = ((a : ℚ) : ℝ) := by
    rw [List.sum_replicate, nsmul_eq_mul, mul_div_cancel_left₀ _ hcastn]
  have hcb : (List.replicate n ((b : ℚ) : ℝ)).sum / ((n : ℕ) : ℝ) = ((b : ℚ) : ℝ) := by
    rw [List.sum_replicate, nsmul_eq_mul, mul_div_cancel_left₀ _ hcastn]
  have hspec : specRadiusKm ((List.replicate n (⟨.fin a, .fin b⟩ : Point)).map Point.toR)
      = 0 := by
    rw [List.map_replicate]
    show specRadiusKm (List.replicate n (((a : ℚ) : ℝ), ((b : ℚ) : ℝ))) = 0
    simp only [specRadiusKm, List.map_replicate, List.length_replicate]
    rw [hca, hcb]
    simp only [spec_hav_self]
    rw [foldl_max_replicate_zero n 0 le_rfl, round2R_zero]
  have hlen : ¬ (List.replicate n p).length = 0 := by
    simpa using hn0
  simp only [computeRadiusFromPolygon, if_neg hlen, hall, Except.map]
  rw [hmain, hspec]

/-- C8: a polygon whose vertices are all the same resolvable point (any
number of repetitions at least 1) yields radius `0`. -/
theorem repeated_point_zero :
    ∀ (p : RawPoint) (a b : ℚ) (n : ℕ), 1 ≤ n →
      resolvePoint p = .ok ⟨.fin a, .fin b⟩ →
      computeRadiusFromPolygon (.arr (List.replicate n p)) = .ok (.fin 0) :=
  fun p a b n hn hres => radius_replicate_zero p a b n hn hres

/-- Witness for C8: three copies of `[10, 20]`. -/
theorem repeated_point_zero_witness :
    computeRadiusFromPolygon
        (.arr (List.replicate 3 (.arr [.num (.fin 10), .num (.fin 20)]))) = .ok (.fin 0) :=
  repeated_point_zero _ 10 20 3 (by norm_num) (by rfl)

/-- C5 (amended): a polygon with exactly one resolvable point yields radius
`0` (for two distinct points the result is the rounded half-separation, not
`0` — see the counterexample). -/
theorem singleton_polygon_zero :
    ∀ (p : RawPoint) (a b : ℚ), resolvePoint p = .ok ⟨.fin a, .fin b⟩ →
      computeRadiusFromPolygon (.arr [p]) = .ok (.fin 0) := by
  intro p a b hres
  have h := radius_replicate_zero p a b 1 le_rfl hres
  simpa [List.replicate_one] using h

/-- Witness for C5 (amended) at `[[5, 6]]`. -/
theorem singleton_polygon_zero_witness :
    computeRadiusFromPolygon (.arr [.arr [.num (.fin 5), .num (.fin 6)]]) = .ok (.fin 0) :=
  singleton_polygon_zero _ 5 6 (by rfl)

/-- The two equal-latitude distances in the two-point counterexample. -/
lemma spec_hav_two_point_left : specHaversineKm 0 90 0 0 = 6371 * (2 * (Real.pi / 4)) := by
  have h1 : ((0 : ℝ) - 0) * Real.pi / 180 / 2 = 0 := by ring
  have h2 : ((0 : ℝ) - 90) * Real.pi / 180 / 2 = -(Real.pi / 4) := by ring
  have h3 : (0 : ℝ) * Real.pi / 180 = 0 := by ring
  simp only [specHaversineKm, h1, h2, h3, Real.sin_zero, Real.cos_zero, Real.sin_neg,
    Real.sin_pi_div_four]
  have h4 : (0 : ℝ) ^ 2 + 1 * 1 * (-(Real.sqrt 2 / 2)) ^ 2 = 1 / 2 := by
    rw [neg_sq, div_pow, Real.sq_sqrt (by norm_num : (0 : ℝ) ≤ 2)]
    norm_num
  rw [h4]
  have h5 : atan2R (Real.sqrt (1 / 2)) (Real.sqrt (1 - 1 / 2)) = Real.pi / 4 := by
    have hpos : (0 : ℝ) < Real.sqrt (1 - 1 / 2) := Real.sqrt_pos.mpr (by norm_num)
    rw [atan2R_pos hpos]
    rw [show (1 : ℝ) - 1 / 2 = 1 / 2 by norm_num,
      div_self (ne_of_gt (Real.sqrt_pos.mpr (by norm_num : (0 : ℝ) < 1 / 2))),
      Real.arctan_one]
  rw [h5]

lemma spec_hav_two_point_right : specHaversineKm 0 90 0 180 = 6371 * (2 * (Real.pi / 4)) := by
  have h1 : ((0 : ℝ) - 0) * Real.pi / 180 / 2 = 0 := by ring
  have h2 : ((180 : ℝ) - 90) * Real.pi / 180 / 2 = Real.pi / 4 := by ring
  have h3 : (0 : ℝ) * Real.pi / 180 = 0 := by ring
  simp only [specHaversineKm, h1, h2, h3, Real.sin_zero, Real.cos_zero,
    Real.sin_pi_div_four]
  have h4 : (0 : ℝ) ^ 2 + 1 * 1 * (Real.sqrt 2 / 2) ^ 2 = 1 / 2 := by
    rw [div_pow, Real.sq_sqrt (by norm_num : (0 : ℝ) ≤ 2)]
    norm_num
  rw [h4]
  have h5 : atan2R (Real.sqrt (1 / 2)) (Real.sqrt (1 - 1 / 2)) = Real.pi / 4 := by
    have hpos : (0 : ℝ) < Real.sqrt (1 - 1 / 2) := Real.sqrt_pos.mpr (by norm_num)
    rw [atan2R_pos hpos]
    rw [show (1 : ℝ) - 1 / 2 = 1 / 2 by norm_num,
      div_self (ne_of_gt (Real.sqrt_pos.mpr (by norm_num : (0 : ℝ) < 1 / 2))),
      Real.arctan_one]
  rw [h5]

/-- C5 counterexample: the 2-point polygon `[[0,0],[0,180]]` is "valid with
fewer than 3 points", yet the radius is about `10007.54`, not `0`. -/
theorem two_point_polygon_nonzero :
    ∃ x, computeRadiusFromPolygon (.arr [.arr [.num (.fin 0), .num (.fin 0)],
        .arr [.num (.fin 0), .num (.fin 180)]]) = .ok (.fin x) ∧ 0 < x := by
  have hres : resolveAll [.arr [.num (.fin 0), .num (.fin 0)],
      .arr [.num (.fin 0), .num (.fin 180)]]
      = .ok [⟨.fin 0, .fin 0⟩, ⟨.fin 0, .fin 180⟩] := by rfl
  have hmain := radius_fin_eq [⟨.fin 0, .fin 0⟩, ⟨.fin 0, .fin 180⟩] (by simp) (by decide)
  have hmap : (([⟨.fin 0, .fin 0⟩, ⟨.fin 0, .fin 180⟩] : List Point).map Point.toR)
      = [((0 : ℝ), (0 : ℝ)), ((0 : ℝ), (180 : ℝ))] := by
    norm_num [Point.toR]
  have hd0 : (0 : ℝ) ≤ 6371 * (2 * (Real.pi / 4)) := by positivity
  have heval : specRadiusKm [((0 : ℝ), (0 : ℝ)), ((0 : ℝ), (180 : ℝ))]
      = round2R (6371 * (2 * (Real.pi / 4))) := by
    simp only [specRadiusKm, List.map_cons, List.map_nil, List.sum_cons, List.sum_nil,
      List.length_cons, List.length_nil, List.foldl_cons, List.foldl_nil]
    norm_num [spec_hav_two_point_left, spec_hav_two_point_right, max_eq_right hd0, max_self]
  refine ⟨round2R (6371 * (2 * (Real.pi / 4))), ?_, ?_⟩
  · simp only [computeRadiusFromPolygon, hres, Except.map]
    rw [if_neg (by norm_num), hmain, hmap, heval]
  · have h1 := le_round2R (6371 * (2 * (Real.pi / 4)))
    have h2 := Real.pi_gt_three
    nlinarith

/-! ## Quantitative bounds for the San Francisco scenario -/

/-- The spec haversine's `a` as a standalone function. -/
noncomputable def specA (lat1 lon1 lat2 lon2 : ℝ) : ℝ :=
  Real.sin ((lat2 - lat1) * Real.pi / 180 / 2) ^ 2 +
    Real.cos (lat1 * Real.pi / 180) * Real.cos (lat2 * Real.pi / 180) *
      Real.sin ((lon2 - lon1) * Real.pi / 180 / 2) ^ 2

/-- For `0 ≤ a < 1` the spec haversine is `2·R·arcsin √a`. -/
lemma spec_hav_arcsin (l1 o1 l2 o2 : ℝ) (h0 : 0 ≤ specA l1 o1 l2 o2)
    (h1 : specA l1 o1 l2 o2 < 1) :
    specHaversineKm l1 o1 l2 o2
      = 6371 * (2 * Real.arcsin (Real.sqrt (specA l1 o1 l2 o2))) := by
  have hred : specHaversineKm l1 o1 l2 o2
      = 6371 * (2 * atan2R (Real.sqrt (specA l1 o1 l2 o2))
          (Real.sqrt (1 - specA l1 o1 l2 o2))) := rfl
  have hx : 0 < Real.sqrt (1 - specA l1 o1 l2 o2) := Real.sqrt_pos.mpr (by linarith)
  have hlt1 : Real.sqrt (specA l1 o1 l2 o2) < 1 := by
    rw [show (1 : ℝ) = Real.sqrt 1 from Real.sqrt_one.symm]
    exact Real.sqrt_lt_sqrt h0 h1
  have harc : Real.arcsin (Real.sqrt (specA l1 o1 l2 o2))
      = Real.arctan (Real.sqrt (specA l1 o1 l2 o2) / Real.sqrt (1 - specA l1 o1 l2 o2)) := by
    have h := Real.arcsin_eq_arctan
      (Set.mem_Ioo.mpr ⟨by linarith [Real.sqrt_nonneg (specA l1 o1 l2 o2)], hlt1⟩)
    rwa [Real.sq_sqrt h0] at h
  rw [hred, atan2R_pos hx, harc]

/-- `x ≤ arcsin x` on `[0, 1]`. -/
lemma le_arcsin {x : ℝ} (h0 : 0 ≤ x) (h1 : x ≤ 1) : x ≤ Real.arcsin x := by
  rcases eq_or_lt_of_le h0 with h | h
  · rw [← h]
    simp [Real.arcsin_zero]
  · have hy : 0 < Real.arcsin x := Real.arcsin_pos.mpr h
    have hsin : Real.sin (Real.arcsin x) = x := Real.sin_arcsin (by linarith) h1
    have hlt := Real.sin_lt hy
    rw [hsin] at hlt
    linarith

/-- `arcsin x ≤ x / √(1 - x²)` on `[0, 1)`. -/
lemma arcsin_le_div {x : ℝ} (h0 : 0 ≤ x) (h1 : x < 1) :
    Real.arcsin x ≤ x / Real.sqrt (1 - x ^ 2) := by
  rcases eq_or_lt_of_le h0 with h | h
  · rw [← h]
    simp [Real.arcsin_zero]
  · have hy0 : 0 < Real.arcsin x := Real.arcsin_pos.mpr h
    have hy2 : Real.arcsin x < Real.pi / 2 := Real.arcsin_lt_pi_div_two.mpr h1
    have htan := Real.lt_tan hy0 hy2
    rw [Real.tan_arcsin] at htan
    linarith

/-- `cos(q°) ≥ 0` for `0 ≤ q ≤ 90`. -/
lemma cos_deg_nonneg {q : ℝ} (h0 : 0 ≤ q) (h1 : q ≤ 90) :
    0 ≤ Real.cos (q * Real.pi / 180) := by
  apply Real.cos_nonneg_of_mem_Icc
  constructor
  · have hp : 0 ≤ q * Real.pi / 180 := by positivity
    nlinarith [Real.pi_pos]
  · nlinarith [mul_nonneg (sub_nonneg.mpr h1) Real.pi_pos.le]

/-- `specA` is at most the sum of squares of its two half-angle arguments. -/
lemma specA_le_sq_add_sq (l1 o1 l2 o2 : ℝ) :
    specA l1 o1 l2 o2
      ≤ ((l2 - l1) * Real.pi / 180 / 2) ^ 2 + ((o2 - o1) * Real.pi / 180 / 2) ^ 2 := by
  unfold specA
  have h1 := @Real.sin_sq_le_sq ((l2 - l1) * Real.pi / 180 / 2)
  have h2 := @Real.sin_sq_le_sq ((o2 - o1) * Real.pi / 180 / 2)
  have hc1 : Real.cos (l1 * Real.pi / 180) ≤ 1 := Real.cos_le_one _
  have hc2 : Real.cos (l2 * Real.pi / 180) ≤ 1 := Real.cos_le_one _
  have hc1m := Real.neg_one_le_cos (l1 * Real.pi / 180)
  have hc2m := Real.neg_one_le_cos (l2 * Real.pi / 180)
  have hP : Real.cos (l1 * Real.pi / 180) * Real.cos (l2 * Real.pi / 180) ≤ 1 := by
    nlinarith
  have hterm : Real.cos (l1 * Real.pi / 180) * Real.cos (l2 * Real.pi / 180) *
      Real.sin ((o2 - o1) * Real.pi / 180 / 2) ^ 2
      ≤ Real.sin ((o2 - o1) * Real.pi / 180 / 2) ^ 2 := by
    nlinarith [sq_nonneg (Real.sin ((o2 - o1) * Real.pi / 180 / 2))]
  linarith

/-- With nonnegative latitude cosines, `specA` dominates the latitude term. -/
lemma specA_ge_sin_sq (l1 o1 l2 o2 : ℝ)
    (hc1 : 0 ≤ Real.cos (l1 * Real.pi / 180)) (hc2 : 0 ≤ Real.cos (l2 * Real.pi / 180)) :
    Real.sin ((l2 - l1) * Real.pi / 180 / 2) ^ 2 ≤ specA l1 o1 l2 o2 := by
  unfold specA
  nlinarith [mul_nonneg (mul_nonneg hc1 hc2)
    (sq_nonneg (Real.sin ((o2 - o1) * Real.pi / 180 / 2)))]

/-- A distance whose `a` is at most `(7/10000)²` is under 9 km. -/
lemma spec_hav_le_nine (l1 o1 l2 o2 : ℝ) (hA0 : 0 ≤ specA l1 o1 l2 o2)
    (hAle : specA l1 o1 l2 o2 ≤ (7 / 10000) ^ 2) :
    specHaversineKm l1 o1 l2 o2 ≤ 9 := by
  have hA1 : specA l1 o1 l2 o2 < 1 := lt_of_le_of_lt hAle (by norm_num)
  rw [spec_hav_arcsin l1 o1 l2 o2 hA0 hA1]
  have hsA : Real.sqrt (specA l1 o1 l2 o2) ≤ 7 / 10000 := by
    have h := Real.sqrt_le_sqrt hAle
    rwa [Real.sqrt_sq (by norm_num : (0 : ℝ) ≤ 7 / 10000)] at h
  have hs1 : (999 / 1000 : ℝ) ≤ Real.sqrt (1 - specA l1 o1 l2 o2) := by
    rw [show (999 / 1000 : ℝ) = Real.sqrt ((999 / 1000) ^ 2) from
      (Real.sqrt_sq (by norm_num)).symm]
    apply Real.sqrt_le_sqrt
    nlinarith
  have harc := arcsin_le_div (Real.sqrt_nonneg (specA l1 o1 l2 o2))
    (lt_of_le_of_lt hsA (by norm_num))
  rw [Real.sq_sqrt hA0] at harc
  have hdiv : Real.sqrt (specA l1 o1 l2 o2) / Real.sqrt (1 - specA l1 o1 l2 o2)
      ≤ (7 / 10000) / (999 / 1000) :=
    div_le_div₀ (by norm_num) hsA (by norm_num) hs1
  nlinarith

/-- A distance whose `a` dominates `s²` is at least `2·R·s`. -/
lemma spec_hav_lower (l1 o1 l2 o2 s : ℝ) (hs0 : 0 ≤ s)
    (hA0 : 0 ≤ specA l1 o1 l2 o2) (hA1 : specA l1 o1 l2 o2 < 1)
    (hA : s ^ 2 ≤ specA l1 o1 l2 o2) :
    6371 * (2 * s) ≤ specHaversineKm l1 o1 l2 o2 := by
  rw [spec_hav_arcsin l1 o1 l2 o2 hA0 hA1]
  have h1 : s ≤ Real.sqrt (specA l1 o1 l2 o2) := (Real.le_sqrt hs0 hA0).mpr hA
  have h2 : Real.sqrt (specA l1 o1 l2 o2) ≤ 1 := by
    rw [show (1 : ℝ) = Real.sqrt 1 from Real.sqrt_one.symm]
    exact Real.sqrt_le_sqrt hA1.le
  have h3 := le_arcsin (Real.sqrt_nonneg (specA l1 o1 l2 o2)) h2
  nlinarith

lemma sfA_nonneg (l2 o2 : ℝ) (hl2a : 0 ≤ l2) (hl2b : l2 ≤ 90) :
    0 ≤ specA (1111 / 30) (-3659 / 30) l2 o2 := by
  have hc1 : 0 ≤ Real.cos ((1111 / 30 : ℝ) * Real.pi / 180) :=
    cos_deg_nonneg (by norm_num) (by norm_num)
  have hc2 : 0 ≤ Real.cos (l2 * Real.pi / 180) := cos_deg_nonneg hl2a hl2b
  exact le_trans (sq_nonneg _) (specA_ge_sin_sq _ _ _ _ hc1 hc2)

lemma sfA1_le : specA (1111 / 30) (-3659 / 30) 37 (-122) ≤ (7 / 10000) ^ 2 := by
  refine le_trans (specA_le_sq_add_sq _ _ _ _) ?_
  have hπu := Real.pi_lt_d2
  have hπ0 := Real.pi_pos
  have hsq : Real.pi ^ 2 ≤ (63 / 20 : ℝ) ^ 2 := by nlinarith
  nlinarith [hsq]

lemma sfA2_le : specA (1111 / 30) (-3659 / 30) (371 / 10) (-122) ≤ (7 / 10000) ^ 2 := by
  refine le_trans (specA_le_sq_add_sq _ _ _ _) ?_
  have hπu := Real.pi_lt_d2
  have hπ0 := Real.pi_pos
  have hsq : Real.pi ^ 2 ≤ (63 / 20 : ℝ) ^ 2 := by nlinarith
  nlinarith [hsq]

lemma sfA3_le : specA (1111 / 30) (-3659 / 30) 37 (-1219 / 10) ≤ (7 / 10000) ^ 2 := by
  refine le_trans (specA_le_sq_add_sq _ _ _ _) ?_
  have hπu := Real.pi_lt_d2
  have hπ0 := Real.pi_pos
  have hsq : Real.pi ^ 2 ≤ (63 / 20 : ℝ) ^ 2 := by nlinarith
  nlinarith [hsq]

/-- The second point's `a` dominates `(0.00058)²`: its latitude offset from
the centroid alone is `π/5400` radians of half-angle. -/
lemma sfA2_ge : (58 / 100000 : ℝ) ^ 2 ≤ specA (1111 / 30) (-3659 / 30) (371 / 10) (-122) := by
  have hc1 : 0 ≤ Real.cos ((1111 / 30 : ℝ) * Real.pi / 180) :=
    cos_deg_nonneg (by norm_num) (by norm_num)
  have hc2 : 0 ≤ Real.cos ((371 / 10 : ℝ) * Real.pi / 180) :=
    cos_deg_nonneg (by norm_num) (by norm_num)
  refine le_trans ?_ (specA_ge_sin_sq _ _ _ _ hc1 hc2)
  have hform : ((371 / 10 : ℝ) - 1111 / 30) * Real.pi / 180 / 2 = Real.pi / 5400 := by
    ring
  rw [hform]
  have h1 : 0 < Real.pi / 5400 := by positivity
  have h2 : Real.pi / 5400 ≤ 1 := by nlinarith [Real.pi_lt_d2]
  have h3 := Real.sin_gt_sub_cube h1 h2
  have hπl := Real.pi_gt_d2
  have hπu := Real.pi_lt_d2
  have hπ0 := Real.pi_pos
  have hsq : Real.pi ^ 2 ≤ (63 / 20 : ℝ) ^ 2 := by nlinarith
  have hcube : Real.pi ^ 3 ≤ (63 / 20 : ℝ) ^ 2 * Real.pi := by
    nlinarith [mul_nonneg (sub_nonneg.mpr hsq) hπ0.le]
  have h4 : (58 / 100000 : ℝ) ≤ Real.pi / 5400 - (Real.pi / 5400) ^ 3 / 4 := by
    nlinarith [hcube, hπl]
  have h5 : (58 / 100000 : ℝ) ≤ Real.sin (Real.pi / 5400) := by linarith
  nlinarith [h5]

/-- C7: on `[[-122.0, 37.0], [-122.0, 37.1], [-121.9, 37.0]]` every pair is
recognised as `[longitude, latitude]` and swapped (latitudes 37-ish,
longitudes -122-ish), and the returned radius lies strictly between 5 and
15 km. -/
theorem sf_scenario_radius_in_range :
    resolveAll [.arr [.num (.fin (-122)), .num (.fin 37)],
        .arr [.num (.fin (-122)), .num (.fin (371 / 10))],
        .arr [.num (.fin (-1219 / 10)), .num (.fin 37)]]
      = .ok [⟨.fin 37, .fin (-122)⟩, ⟨.fin (371 / 10), .fin (-122)⟩,
          ⟨.fin 37, .fin (-1219 / 10)⟩] ∧
    ∃ x, computeRadiusFromPolygon (.arr [.arr [.num (.fin (-122)), .num (.fin 37)],
        .arr [.num (.fin (-122)), .num (.fin (371 / 10))],
        .arr [.num (.fin (-1219 / 10)), .num (.fin 37)]]) = .ok (.fin x) ∧
      5 < x ∧ x < 15 := by
  have hres : resolveAll [.arr [.num (.fin (-122)), .num (.fin 37)],
      .arr [.num (.fin (-122)), .num (.fin (371 / 10))],
      .arr [.num (.fin (-1219 / 10)), .num (.fin 37)]]
      = .ok [⟨.fin 37, .fin (-122)⟩, ⟨.fin (371 / 10), .fin (-122)⟩,
          ⟨.fin 37, .fin (-1219 / 10)⟩] := by
    have habs3 : (decide (|(-1219 / 10 : ℚ)| ≤ 90)) = false :=
      decide_eq_false (by rw [abs_div]; norm_num)
    simp [resolveAll, resolvePoint, coerceNum, JNum.isNaN, JNum.absLe, habs3]
    norm_num
  refine ⟨hres, ?_⟩
  have hmain := radius_fin_eq [⟨.fin 37, .fin (-122)⟩, ⟨.fin (371 / 10), .fin (-122)⟩,
    ⟨.fin 37, .fin (-1219 / 10)⟩] (by simp) (by decide)
  have hmap : (([⟨.fin 37, .fin (-122)⟩, ⟨.fin (371 / 10), .fin (-122)⟩,
      ⟨.fin 37, .fin (-1219 / 10)⟩] : List Point).map Point.toR)
      = [((37 : ℝ), (-122 : ℝ)), ((371 / 10 : ℝ), (-122 : ℝ)),
          ((37 : ℝ), (-1219 / 10 : ℝ))] := by
    norm_num [Point.toR]
  have heval : specRadiusKm [((37 : ℝ), (-122 : ℝ)), ((371 / 10 : ℝ), (-122 : ℝ)),
      ((37 : ℝ), (-1219 / 10 : ℝ))]
      = round2R (max (max (max 0
          (specHaversineKm (1111 / 30) (-3659 / 30) 37 (-122)))
          (specHaversineKm (1111 / 30) (-3659 / 30) (371 / 10) (-122)))
          (specHaversineKm (1111 / 30) (-3659 / 30) 37 (-1219 / 10))) := by
    simp only [specRadiusKm, List.map_cons, List.map_nil, List.sum_cons, List.sum_nil,
      List.length_cons, List.length_nil, List.foldl_cons, List.foldl_nil]
    norm_num
  have hd1 : specHaversineKm (1111 / 30) (-3659 / 30) 37 (-122) ≤ 9 :=
    spec_hav_le_nine _ _ _ _ (sfA_nonneg 37 (-122) (by norm_num) (by norm_num)) sfA1_le
  have hd2 : specHaversineKm (1111 / 30) (-3659 / 30) (371 / 10) (-122) ≤ 9 :=
    spec_hav_le_nine _ _ _ _ (sfA_nonneg (371 / 10) (-122) (by norm_num) (by norm_num)) sfA2_le
  have hd3 : specHaversineKm (1111 / 30) (-3659 / 30) 37 (-1219 / 10) ≤ 9 :=
    spec_hav_le_nine _ _ _ _ (sfA_nonneg 37 (-1219 / 10) (by norm_num) (by norm_num)) sfA3_le
  have hd2ge : 6371 * (2 * (58 / 100000 : ℝ))
      ≤ specHaversineKm (1111 / 30) (-3659 / 30) (371 / 10) (-122) :=
    spec_hav_lower _ _ _ _ _ (by norm_num)
      (sfA_nonneg (371 / 10) (-122) (by norm_num) (by norm_num))
      (lt_of_le_of_lt sfA2_le (by norm_num)) sfA2_ge
  have hMle : max (max (max 0
      (specHaversineKm (1111 / 30) (-3659 / 30) 37 (-122)))
      (specHaversineKm (1111 / 30) (-3659 / 30) (371 / 10) (-122)))
      (specHaversineKm (1111 / 30) (-3659 / 30) 37 (-1219 / 10)) ≤ 9 :=
    max_le (max_le (max_le (by norm_num) hd1) hd2) hd3
  have hMge : 6371 * (2 * (58 / 100000 : ℝ))
      ≤ max (max (max 0
        (specHaversineKm (1111 / 30) (-3659 / 30) 37 (-122)))
        (specHaversineKm (1111 / 30) (-3659 / 30) (371 / 10) (-122)))
        (specHaversineKm (1111 / 30) (-3659 / 30) 37 (-1219 / 10)) :=
    le_trans hd2ge (le_trans (le_max_right _ _) (le_max_left _ _))
  refine ⟨round2R (max (max (max 0
      (specHaversineKm (1111 / 30) (-3659 / 30) 37 (-122)))
      (specHaversineKm (1111 / 30) (-3659 / 30) (371 / 10) (-122)))
      (specHaversineKm (1111 / 30) (-3659 / 30) 37 (-1219 / 10))), ?_, ?_, ?_⟩
  · simp only [computeRadiusFromPolygon, hres, Except.map]
    rw [if_neg (by decide), hmain, hmap, heval]
  · have h := le_round2R (max (max (max 0
      (specHaversineKm (1111 / 30) (-3659 / 30) 37 (-122)))
      (specHaversineKm (1111 / 30) (-3659 / 30) (371 / 10) (-122)))
      (specHaversineKm (1111 / 30) (-3659 / 30) 37 (-1219 / 10)))
    linarith
  · have h := round2R_le (max (max (max 0
      (specHaversineKm (1111 / 30) (-3659 / 30) 37 (-122)))
      (specHaversineKm (1111 / 30) (-3659 / 30) (371 / 10) (-122)))
      (specHaversineKm (1111 / 30) (-3659 / 30) 37 (-1219 / 10)))
    linarith

end IpLogger
